import Mathlib

/-
Verification of the WebPy routing, dispatch and middleware core.

The definitions below are a shallow embedding of the Python sources:
  - router.py     (Router.route, Router.match, Router.methods)
  - core.py       (WebPyCore.process, WebPyCore.warn)
  - middleware.py (Middleware.process, Middleware.filter)
  - webpy.py      (the wrapper built by WebPy.route)

Route templates are compiled by router.py with
    pattern = re.sub(r"<(\w+):(\w+)>", r"(?P<\1>[^/]+)", path)
    regex   = re.compile(f"^{pattern}$")
so a template is a sequence of literal characters and typed placeholders
`<name:type>`; the type tag is captured by the substitution but dropped in
the replacement, every placeholder turning into the greedy group `[^/]+`.
We embed the compiled pattern as a list of pieces and implement the regex
semantics of such patterns directly: literals match exactly, a placeholder
matches a nonempty run of characters other than the separator, longest
run first with backtracking, and the whole path must be consumed (the
pattern is anchored with `^...$`).  This embedding is faithful for
templates whose literal residue contains no regex metacharacter (checked
by `compileOk` below) and for paths without a trailing newline.
-/

/-- One piece of a compiled route pattern: a literal character, or a
placeholder `<name:ty>` turned into the named group `(?P<name>[^/]+)`.
The type tag is kept only as data; router.py discards it in the
replacement string, so matching never consults it. -/
inductive Piece where
  | lit (c : Char)
  | param (pname : String) (ty : String)
deriving DecidableEq, Repr

/-- Word characters of the regex class `\w` for ASCII templates. -/
def isWordChar (c : Char) : Bool := c.isAlpha || c.isDigit || c = '_'

/-- Attempt to read `name:type>` directly after a `<`, mirroring one match
of `re.sub`'s pattern `<(\w+):(\w+)>` at a fixed position: both `\w+` runs
are maximal (greedy matching cannot backtrack here because `:` and `>` are
not word characters). Returns the two captures and the rest of the input. -/
def tryPlaceholder (cs : List Char) : Option (String × String × List Char) :=
  let w1 := cs.takeWhile isWordChar
  let r1 := cs.dropWhile isWordChar
  if w1.isEmpty then none
  else
    match r1 with
    | ':' :: r2 =>
      let w2 := r2.takeWhile isWordChar
      let r3 := r2.dropWhile isWordChar
      if w2.isEmpty then none
      else
        match r3 with
        | '>' :: r4 => some (String.mk w1, String.mk w2, r4)
        | _ => none
    | _ => none

/-- Compile a route template, embedding router.py's
`re.sub(r"<(\\w+):(\\w+)>", r"(?P<\\1>[^/]+)", path)`: the input is scanned
left to right, each occurrence of `<name:type>` becomes a placeholder
piece, every other character (including a `<` that does not open a
well-formed placeholder) stays a literal piece.  The recursion is driven
by a fuel argument so that it is structural; every step consumes at least
one input character, so fuel equal to the input length (as supplied by
`parseTemplate`) makes the zero-fuel case unreachable. -/
def parseTemplateF : Nat → List Char → List Piece
  | 0, _ => []
  | _ + 1, [] => []
  | fuel + 1, c :: rest =>
    if c = '<' then
      match tryPlaceholder rest with
      | some (n, t, rest') => Piece.param n t :: parseTemplateF fuel rest'
      | none => Piece.lit c :: parseTemplateF fuel rest
    else Piece.lit c :: parseTemplateF fuel rest

/-- Compile a route template (see `parseTemplateF`). -/
def parseTemplate (cs : List Char) : List Piece :=
  parseTemplateF cs.length cs

/-- All ways to split off a nonempty separator-free chunk at the front of
the input, longest chunk first: the candidate consumptions of one `[^/]+`
group under greedy matching with backtracking. -/
def greedySplits (cs : List Char) : List (List Char × List Char) :=
  let m := (cs.takeWhile (fun c => c ≠ '/')).length
  (List.range m).map (fun i => (cs.take (m - i), cs.drop (m - i)))

mutual

/-- Match a compiled pattern against a path, implementing the semantics of
the anchored regex `^...$` that router.py builds: literal pieces match
their character exactly, a placeholder piece matches like `(?P<name>[^/]+)`
(greedy, backtracking), and the whole input must be consumed.  On success
the named captures are returned in pattern order, as `groupdict` does. -/
def matchParts : List Piece → List Char → Option (List (String × String))
  | [], cs => if cs.isEmpty then some [] else none
  | Piece.lit c :: ps, cs =>
    match cs with
    | [] => none
    | d :: cs' => if d = c then matchParts ps cs' else none
  | Piece.param n _ :: ps, cs => trySplits n ps (greedySplits cs)
termination_by ps _ => (ps.length, 0)

/-- Backtracking over the candidate consumptions of one `[^/]+` group:
try each split in order (longest first) until the rest of the pattern
matches the rest of the input. -/
def trySplits (n : String) (ps : List Piece) :
    List (List Char × List Char) → Option (List (String × String))
  | [] => none
  | (pre, suf) :: rest =>
    match matchParts ps suf with
    | some r => some ((n, String.mk pre) :: r)
    | none => trySplits n ps rest
termination_by splits => (ps.length, splits.length + 1)

end

/-- Names of the placeholders of a compiled pattern, in order. -/
def paramNames : List Piece → List String
  | [] => []
  | Piece.lit _ :: ps => paramNames ps
  | Piece.param n _ :: ps => n :: paramNames ps

/-- Build a path from a pattern by substituting the given values for the
placeholders, in order; literal pieces contribute their character. -/
def renderPieces : List Piece → List String → List Char
  | [], _ => []
  | Piece.lit c :: ps, vs => c :: renderPieces ps vs
  | Piece.param _ _ :: ps, [] => renderPieces ps []
  | Piece.param _ _ :: ps, v :: vs => v.data ++ renderPieces ps vs

/-- Characters that are special in a Python regular expression outside a
character class.  A compiled template whose literal residue avoids them is
a regex that `re.compile` accepts and that matches those characters
verbatim, which is what the embedding assumes. -/
def regexSpecial (c : Char) : Bool :=
  c = '.' || c = '^' || c = '$' || c = '*' || c = '+' || c = '?' ||
  c = Char.ofNat 123 || c = Char.ofNat 125 || c = '[' || c = ']' ||
  c = '\\' || c = '|' || c = '(' || c = ')'

/-- A literal piece is plain when `re` treats it verbatim. -/
def plainPiece : Piece → Bool
  | Piece.lit c => !regexSpecial c
  | Piece.param _ _ => true

/-- Duplicate-freedom of a list of names, as a boolean. -/
def nodupNames : List String → Bool
  | [] => true
  | s :: rest => !(rest.contains s) && nodupNames rest

/-- Faithfulness condition for a template: its literal residue has no
regex metacharacter (so `re.compile` succeeds and matches it verbatim) and
its placeholder names are distinct (duplicate `(?P<name>...)` groups make
`re.compile` raise, aborting registration before the route is stored). -/
def compileOk (path : String) : Bool :=
  (parseTemplate path.data).all plainPiece && nodupNames (paramNames (parseTemplate path.data))

/-- One entry of `Router.routes`: the stored handler (represented by an
opaque identifier), the allowed-methods list and the compiled pattern. -/
structure RouteEntry where
  handler : Nat
  methods : List String
  pattern : List Piece
deriving DecidableEq, Repr

/-- The registry `Router.routes`: a Python dict keyed by the template
string, in insertion order. -/
abbrev Registry := List (String × RouteEntry)

/-- Assignment to a Python dict: `d[k] = v` keeps the position of an
existing key and replaces its value, otherwise appends. -/
def dictInsert (k : String) (v : RouteEntry) : Registry → Registry
  | [] => [(k, v)]
  | (k', v') :: rest =>
    if k' = k then (k, v) :: rest else (k', v') :: dictInsert k v rest

namespace Router

/-- Route registration, embedding `Router.route`: the default method list
is `["GET"]`, the template is compiled, and the decorator stores
`cls.routes[path] = {handler, methods, pattern}` — a dict assignment. -/
def route (routes : Registry) (path : String) (methods : Option (List String))
    (handler : Nat) : Registry :=
  let ms := methods.getD ["GET"]
  dictInsert path ⟨handler, ms, parseTemplate path.data⟩ routes

/-- Request matching, embedding `Router.match`: walk the registry in
order; return the first entry whose pattern matches the path and whose
method list contains the request method; an entry that matches only
structurally is skipped, not reported. -/
def matching (routes : Registry) (path method : String) :
    Option (Nat × List (String × String)) :=
  match routes with
  | [] => none
  | (_, e) :: rest =>
    match matchParts e.pattern path.data with
    | some ps => if method ∈ e.methods then some (e.handler, ps) else matching rest path method
    | none => matching rest path method

/-- Allowed-methods query, embedding `Router.methods`: the method list of
the first entry whose pattern matches the path, `["GET"]` when none does. -/
def methods (routes : Registry) (path : String) : List String :=
  match routes with
  | [] => ["GET"]
  | (_, e) :: rest =>
    match matchParts e.pattern path.data with
    | some _ => e.methods
    | none => methods rest path

end Router

/-- Registry of custom error handlers (`WebPyCore.errors`), keyed by
status code.  A handler either completes (building a custom response) or
raises; `Except.error` carries the exception message. -/
abbrev ErrorReg := Nat → Option (Except String Unit)

/-- Behaviour of the route handlers: given the stored handler identifier
and the extracted parameters, the handler either returns normally or
raises with a message. -/
abbrev HandlerRun := Nat → List (String × String) → Except String Unit

/-- Observable outcome of one dispatch through `WebPyCore.process`. -/
inductive Outcome where
  /-- A matched handler ran to completion and its response was sent. -/
  | handled
  /-- The path fell under `/static/` and was delegated to `deliver`. -/
  | staticServed (path : String)
  /-- An error response was produced for the given status; `custom` tells
  whether a registered custom handler built it (`warn`'s first branch) or
  `send_error` produced the default terse response. -/
  | errorResponse (status : Nat) (custom : Bool)
  /-- An exception escaped `process` to the transport layer. -/
  | raised (e : String)
deriving DecidableEq, Repr

/-- The check `request.path.startswith("/static/")` from
`WebPyCore.process`, stated on the character list of the path. -/
def staticReq (path : String) : Bool :=
  "/static/".data.isPrefixOf path.data

namespace WebPyCore

/-- Error reporting, embedding `WebPyCore.warn`: when a custom handler is
registered for the status it is invoked and its response sent — with no
exception protection, so a raising handler propagates (`Except.error`);
otherwise `send_error` produces the default terse response. -/
def warn (errors : ErrorReg) (status : Nat) : Except String Outcome :=
  match errors status with
  | some (Except.ok _) => Except.ok (Outcome.errorResponse status true)
  | some (Except.error e) => Except.error e
  | none => Except.ok (Outcome.errorResponse status false)

/-- Central dispatch, embedding `WebPyCore.process`: inside the `try`
block the request is matched, a matched handler is run (its exception, if
any, propagating to the `except` clause), an unmatched `/static/` path is
delegated to `deliver`, and any other unmatched path is reported through
`warn(404)` — still inside `try`, so an exception out of a custom 404
handler also reaches the `except` clause.  The `except` clause calls
`warn(500)`; an exception raised there escapes `process` altogether. -/
def process (routes : Registry) (errors : ErrorReg) (run : HandlerRun)
    (path method : String) : Outcome :=
  let tryBlock : Except String Outcome :=
    match Router.matching routes path method with
    | some (h, ps) =>
      match run h ps with
      | Except.ok _ => Except.ok Outcome.handled
      | Except.error e => Except.error e
    | none =>
      if staticReq path then Except.ok (Outcome.staticServed path)
      else warn errors 404
  match tryBlock with
  | Except.ok o => o
  | Except.error _ =>
    match warn errors 500 with
    | Except.ok o => o
    | Except.error e => Outcome.raised e

end WebPyCore

/-- A Python value as far as the middleware pipeline observes it: the
pipeline only asks whether a hook's return value is the object `False`. -/
inductive PyVal where
  | none
  | boolTrue
  | boolFalse
  | int (n : Int)
  | str (s : String)
  | obj (id : Nat)
deriving DecidableEq, Repr

/-- The identity test `result is False` from middleware.py.  Only the
singleton `False` object passes: in CPython `0 == False` and `"" == False`
are about equality, while `0 is False`, `"" is False` and `None is False`
are all false, because they are different objects. -/
def isFalseVal : PyVal → Bool
  | PyVal.boolFalse => true
  | _ => false

/-- A middleware hook: it may read and mutate the request/response state
(abstracted as `σ`) and returns a Python value. -/
abbrev Hook (σ : Type) := σ → σ × PyVal

namespace Middleware

/-- Preprocessing stage, embedding `Middleware.process`: run the guards in
registration order, threading the mutable request/response state; the
first guard whose result `is False` stops the loop with `false`, otherwise
the stage ends with `true`. -/
def process {σ : Type} (guards : List (Hook σ)) (s : σ) : σ × Bool :=
  match guards with
  | [] => (s, true)
  | g :: gs =>
    if isFalseVal (g s).2 then ((g s).1, false) else process gs (g s).1

/-- Postprocessing stage, embedding `Middleware.filter`: identical loop
over the registered filters. -/
def filter {σ : Type} (filters : List (Hook σ)) (s : σ) : σ × Bool :=
  match filters with
  | [] => (s, true)
  | f :: fs =>
    if isFalseVal (f s).2 then ((f s).1, false) else filter fs (f s).1

end Middleware

namespace WebPy

/-- The wrapper that `WebPy.route` registers around a handler: run the
preprocessing stage; when it reports `True` call the handler, then run the
postprocessing stage (discarding its boolean) and return the handler's
result; when preprocessing reports `False`, return `None` without touching
the handler or the postprocessing stage. -/
def wrapper {σ : Type} (guards filters : List (Hook σ)) (handler : Hook σ)
    (s : σ) : σ × PyVal :=
  let pr := Middleware.process guards s
  if pr.2 then
    let hr := handler pr.1
    let fr := Middleware.filter filters hr.1
    (fr.1, hr.2)
  else (pr.1, PyVal.none)

end WebPy

/-- First entry of the registry whose compiled pattern matches the path
structurally (whatever its method list). -/
def firstStruct (routes : Registry) (path : String) : Option RouteEntry :=
  match routes with
  | [] => none
  | (_, e) :: rest =>
    if (matchParts e.pattern path.data).isSome then some e else firstStruct rest path

/-- Replace every type tag of a compiled pattern by `str`. -/
def retype : Piece → Piece
  | Piece.lit c => Piece.lit c
  | Piece.param n _ => Piece.param n "str"



/-- If every character of `pre` satisfies `p`, `takeWhile` walks past it. -/
theorem takeWhile_append_all (p : Char → Bool) :
    ∀ (pre suf : List Char), (∀ c ∈ pre, p c = true) →
      (pre ++ suf).takeWhile p = pre ++ suf.takeWhile p := by
  intro pre
  induction pre with
  | nil => intro suf _; rfl
  | cons c pre ih =>
    intro suf h
    have hc : p c = true := h c (by simp)
    simp only [List.cons_append, List.takeWhile_cons, hc, if_true]
    rw [ih suf (fun d hd => h d (by simp [hd]))]

/-- Splitting a nonempty separator-free chunk off the front is one of the
candidate splits that the `[^/]+` group tries. -/
theorem greedySplits_mem (pre suf : List Char) (hne : pre ≠ [])
    (hs : ∀ c ∈ pre, c ≠ '/') : (pre, suf) ∈ greedySplits (pre ++ suf) := by
  unfold greedySplits
  have hall : ∀ c ∈ pre, (fun c => decide (c ≠ '/')) c = true := by
    intro c hc
    simp [hs c hc]
  have htw := takeWhile_append_all (fun c => decide (c ≠ '/')) pre suf hall
  simp only [List.mem_map, List.mem_range]
  have hm : ((pre ++ suf).takeWhile (fun c => decide (c ≠ '/'))).length
      = pre.length + (suf.takeWhile (fun c => decide (c ≠ '/'))).length := by
    rw [htw, List.length_append]
  have hkm : pre.length ≤ ((pre ++ suf).takeWhile (fun c => decide (c ≠ '/'))).length := by
    omega
  have hk1 : 1 ≤ pre.length := by
    cases pre with
    | nil => exact absurd rfl hne
    | cons _ _ => simp
  refine ⟨((pre ++ suf).takeWhile (fun c => decide (c ≠ '/'))).length - pre.length, by omega, ?_⟩
  have hsub : ((pre ++ suf).takeWhile (fun c => decide (c ≠ '/'))).length -
      (((pre ++ suf).takeWhile (fun c => decide (c ≠ '/'))).length - pre.length) = pre.length := by
    omega
  rw [hsub, List.take_left, List.drop_left]

/-- Backtracking succeeds as soon as any candidate split lets the rest of
the pattern match the rest of the input. -/
theorem trySplits_isSome (n : String) (ps : List Piece) :
    ∀ splits : List (List Char × List Char),
      (∃ pr ∈ splits, (matchParts ps pr.2).isSome) →
      (trySplits n ps splits).isSome := by
  intro splits
  induction splits with
  | nil => intro h; simp at h
  | cons pr rest ih =>
    intro h
    obtain ⟨pre, suf⟩ := pr
    cases hm : matchParts ps suf with
    | some r => simp [trySplits, hm]
    | none =>
      simp only [trySplits, hm]
      rcases h with ⟨⟨p1, s1⟩, hmem, hsome⟩
      rcases List.mem_cons.mp hmem with heq | hmem'
      · cases heq
        rw [hm] at hsome
        simp at hsome
      · exact ih ⟨(p1, s1), hmem', hsome⟩

/-- Shape of a successful backtracking step: the value comes from one of
the splits, with a recursive match for the remaining pattern. -/
theorem trySplits_keys (n : String) (ps : List Piece)
    (ih : ∀ cs r, matchParts ps cs = some r → r.map Prod.fst = paramNames ps) :
    ∀ splits r, trySplits n ps splits = some r →
      r.map Prod.fst = n :: paramNames ps := by
  intro splits
  induction splits with
  | nil => intro r h; simp [trySplits] at h
  | cons pr rest ihs =>
    intro r h
    obtain ⟨pre, suf⟩ := pr
    cases hm : matchParts ps suf with
    | some r' =>
      simp only [trySplits, hm] at h
      injection h with h
      subst h
      simp [ih suf r' hm]
    | none =>
      simp only [trySplits, hm] at h
      exact ihs r h

/-- Keys of a successful match: `groupdict` has exactly the placeholder
names of the pattern, in order. -/
theorem matchParts_keys :
    ∀ (ps : List Piece) (cs : List Char) (r : List (String × String)),
      matchParts ps cs = some r → r.map Prod.fst = paramNames ps := by
  intro ps
  induction ps with
  | nil =>
    intro cs r h
    simp only [matchParts] at h
    split at h
    · injection h with h
      subst h
      simp [paramNames]
    · exact absurd h (by simp)
  | cons p ps ih =>
    cases p with
    | lit c =>
      intro cs r h
      cases cs with
      | nil => simp [matchParts] at h
      | cons d cs' =>
        simp only [matchParts] at h
        split at h
        · simpa [paramNames] using ih cs' r h
        · exact absurd h (by simp)
    | param n t =>
      intro cs r h
      simp only [matchParts] at h
      simpa [paramNames] using trySplits_keys n ps ih (greedySplits cs) r h

/-- Substituting nonempty separator-free values for the placeholders of a
pattern produces a path the pattern matches. -/
theorem matchParts_render :
    ∀ (ps : List Piece) (vs : List String),
      vs.length = (paramNames ps).length →
      (∀ v ∈ vs, v ≠ "" ∧ '/' ∉ v.data) →
      (matchParts ps (renderPieces ps vs)).isSome := by
  intro ps
  induction ps with
  | nil =>
    intro vs _ _
    simp [matchParts, renderPieces]
  | cons p ps ih =>
    cases p with
    | lit c =>
      intro vs hlen hv
      simp only [renderPieces, matchParts, if_pos rfl]
      simp only [paramNames] at hlen
      exact ih vs hlen hv
    | param n t =>
      intro vs hlen hv
      cases vs with
      | nil => simp [paramNames] at hlen
      | cons v vs' =>
        simp only [renderPieces, matchParts]
        have hvr : v ≠ "" ∧ '/' ∉ v.data := hv v (by simp)
        have hdne : v.data ≠ [] := by
          intro hd
          apply hvr.1
          cases v
          simp_all [String.ext_iff]
        have hds : ∀ c ∈ v.data, c ≠ '/' := by
          intro c hc heq
          exact hvr.2 (heq ▸ hc)
        have hmem := greedySplits_mem v.data (renderPieces ps vs') hdne hds
        have hlen' : vs'.length = (paramNames ps).length := by
          simp only [paramNames] at hlen
          simpa using hlen
        have hih := ih vs' hlen' (fun w hw => hv w (by simp [hw]))
        exact trySplits_isSome n ps _ ⟨(v.data, renderPieces ps vs'), hmem, hih⟩

/-- Entries that match only structurally (method not allowed) or not at
all are skipped by `Router.matching`, which continues down the registry. -/
theorem Router.matching_append_skip (earlier rest : Registry) (path method : String)
    (h : ∀ pe ∈ earlier, (matchParts pe.2.pattern path.data).isSome → method ∉ pe.2.methods) :
    Router.matching (earlier ++ rest) path method = Router.matching rest path method := by
  induction earlier with
  | nil => rfl
  | cons pe es ih =>
    obtain ⟨k, e⟩ := pe
    have htail : ∀ pe ∈ es, (matchParts pe.2.pattern path.data).isSome → method ∉ pe.2.methods :=
      fun pe hpe => h pe (by simp [hpe])
    cases hm : matchParts e.pattern path.data with
    | some ps =>
      have hnm : method ∉ e.methods := h (k, e) (by simp) (by simp [hm])
      simp only [List.cons_append, Router.matching, hm, if_neg hnm]
      exact ih htail
    | none =>
      simp only [List.cons_append, Router.matching, hm]
      exact ih htail

/-- When every structurally matching entry forbids the method,
`Router.matching` reports no match at all. -/
theorem Router.matching_eq_none (routes : Registry) (path method : String)
    (h : ∀ pe ∈ routes, (matchParts pe.2.pattern path.data).isSome → method ∉ pe.2.methods) :
    Router.matching routes path method = none := by
  have := Router.matching_append_skip routes [] path method h
  simpa using this

/-- Characterisation of `Router.methods`: it returns the method list of
the first structurally matching entry, never a union, and the hard-coded
default `["GET"]` when no entry matches. -/
theorem Router.methods_eq_firstStruct (routes : Registry) (path : String) :
    Router.methods routes path =
      (match firstStruct routes path with
       | some e => e.methods
       | none => ["GET"]) := by
  induction routes with
  | nil => rfl
  | cons pe rest ih =>
    obtain ⟨k, e⟩ := pe
    cases hm : matchParts e.pattern path.data with
    | some ps => simp [Router.methods, firstStruct, hm]
    | none => simpa [Router.methods, firstStruct, hm] using ih

/-- Backtracking is unaffected by the type tags of the rest of the
pattern, given that the rest itself matches identically. -/
theorem trySplits_retype (n : String) (ps : List Piece)
    (ih : ∀ cs, matchParts (ps.map retype) cs = matchParts ps cs) :
    ∀ splits, trySplits n (ps.map retype) splits = trySplits n ps splits := by
  intro splits
  induction splits with
  | nil => simp [trySplits]
  | cons pr rest ihs =>
    obtain ⟨pre, suf⟩ := pr
    simp only [trySplits, ih suf]
    cases matchParts ps suf with
    | some r => rfl
    | none => exact ihs

/-- Matching ignores the placeholder type tags entirely: replacing every
tag by `str` yields the same matches with the same captures, because the
substitution in `Router.route` drops the tag when building the group. -/
theorem matchParts_retype :
    ∀ (ps : List Piece) (cs : List Char),
      matchParts (ps.map retype) cs = matchParts ps cs := by
  intro ps
  induction ps with
  | nil => intro cs; rfl
  | cons p ps ih =>
    cases p with
    | lit c =>
      intro cs
      cases cs with
      | nil => simp [List.map, retype, matchParts]
      | cons d cs' =>
        simp only [List.map, retype, matchParts]
        split
        · exact ih cs'
        · rfl
    | param n t =>
      intro cs
      simp only [List.map, retype, matchParts]
      exact trySplits_retype n ps ih (greedySplits cs)

/-- Running the preprocessing stage over a concatenation: the second part
runs exactly when the first reports `true`. -/
theorem Middleware.process_append {σ : Type} (l1 l2 : List (Hook σ)) (s : σ) :
    Middleware.process (l1 ++ l2) s =
      (if (Middleware.process l1 s).2
       then Middleware.process l2 (Middleware.process l1 s).1
       else Middleware.process l1 s) := by
  induction l1 generalizing s with
  | nil => simp [Middleware.process]
  | cons g gs ih =>
    simp only [List.cons_append, Middleware.process]
    cases hr : isFalseVal (g s).2 with
    | true => simp
    | false => simpa using ih (g s).1

/-- Running the postprocessing stage over a concatenation. -/
theorem Middleware.filter_append {σ : Type} (l1 l2 : List (Hook σ)) (s : σ) :
    Middleware.filter (l1 ++ l2) s =
      (if (Middleware.filter l1 s).2
       then Middleware.filter l2 (Middleware.filter l1 s).1
       else Middleware.filter l1 s) := by
  induction l1 generalizing s with
  | nil => simp [Middleware.filter]
  | cons g gs ih =>
    simp only [List.cons_append, Middleware.filter]
    cases hr : isFalseVal (g s).2 with
    | true => simp
    | false => simpa using ih (g s).1

/-- A stage none of whose hooks ever returns the object `False` reports
`true`. -/
theorem Middleware.process_all_true {σ : Type} (l : List (Hook σ))
    (h : ∀ g ∈ l, ∀ t, isFalseVal (g t).2 = false) :
    ∀ s, (Middleware.process l s).2 = true := by
  induction l with
  | nil => intro s; rfl
  | cons g gs ih =>
    intro s
    simp only [Middleware.process, h g (by simp) s, if_false]
    exact ih (fun g' hg' => h g' (by simp [hg'])) (g s).1

/-- A postprocessing stage none of whose hooks ever returns the object
`False` reports `true`. -/
theorem Middleware.filter_all_true {σ : Type} (l : List (Hook σ))
    (h : ∀ g ∈ l, ∀ t, isFalseVal (g t).2 = false) :
    ∀ s, (Middleware.filter l s).2 = true := by
  induction l with
  | nil => intro s; rfl
  | cons g gs ih =>
    intro s
    simp only [Middleware.filter, h g (by simp) s, if_false]
    exact ih (fun g' hg' => h g' (by simp [hg'])) (g s).1

/-- Claim C1, counterexample.  Registering `/a` for POST only and
dispatching GET `/a` (a structural match with a disallowed method), the
dispatcher reports the default 404 response, not a 405; `Router.methods`
on a path matched structurally by two entries (`/a` for POST and
`/<x:str>` for PUT) returns only the first entry's list, not the union;
and on a path no entry matches it returns `["GET"]`, not an empty set. -/
theorem c1_counterexample :
    WebPyCore.process (Router.route [] "/a" (some ["POST"]) 0) (fun _ => none)
        (fun _ _ => Except.ok ()) "/a" "GET" = Outcome.errorResponse 404 false
    ∧ Router.methods
        (Router.route (Router.route [] "/a" (some ["POST"]) 0) "/<x:str>" (some ["PUT"]) 1)
        "/a" = ["POST"]
    ∧ (matchParts (parseTemplate "/<x:str>".data) "/a".data).isSome = true
    ∧ Router.methods [] "/zzz" = ["GET"] := by
  refine ⟨?_, ?_, ?_, ?_⟩ <;>
    simp +decide [WebPyCore.process, WebPyCore.warn, staticReq, Router.route, Router.matching,
      Router.methods, dictInsert, parseTemplate, parseTemplateF, tryPlaceholder, isWordChar,
      List.takeWhile_cons, List.dropWhile_cons, matchParts, trySplits, greedySplits,
      List.range_succ]

/-- Claim C1, amended.  When at least one compiled pattern structurally
matches the request path but no structurally matching entry allows the
request method, `Router.match` reports no match at all, so dispatch (with
no custom 404 handler registered and a path outside `/static/`) answers
with the default NotFound (404) response — never a 405.  `Router.methods`
returns the method list of the first structurally matching entry, not the
union across matching entries, and the hard-coded default `["GET"]`,
never an empty set, when nothing matches. -/
theorem c1_amended (routes : Registry) (errors : ErrorReg) (run : HandlerRun)
    (path method : String)
    (hmm : ∀ pe ∈ routes, (matchParts pe.2.pattern path.data).isSome → method ∉ pe.2.methods)
    (hst : staticReq path = false)
    (h404 : errors 404 = none) :
    WebPyCore.process routes errors run path method = Outcome.errorResponse 404 false
    ∧ Router.methods routes path =
        (match firstStruct routes path with
         | some e => e.methods
         | none => ["GET"]) := by
  constructor
  · have hnone := Router.matching_eq_none routes path method hmm
    simp [WebPyCore.process, hnone, hst, WebPyCore.warn, h404]
  · exact Router.methods_eq_firstStruct routes path

/-- Claim C1, witness for the amended theorem at a concrete registry. -/
theorem c1_witness :
    ((∀ pe ∈ Router.route [] "/a" (some ["POST"]) 0,
        (matchParts pe.2.pattern "/a".data).isSome → "GET" ∉ pe.2.methods)
      ∧ staticReq "/a" = false
      ∧ (fun _ => (none : Option (Except String Unit))) 404 = none)
    ∧ (WebPyCore.process (Router.route [] "/a" (some ["POST"]) 0)
          (fun _ => none) (fun _ _ => Except.ok ()) "/a" "GET"
        = Outcome.errorResponse 404 false
      ∧ Router.methods (Router.route [] "/a" (some ["POST"]) 0) "/a" =
          (match firstStruct (Router.route [] "/a" (some ["POST"]) 0) "/a" with
           | some e => e.methods
           | none => ["GET"])) :=
  ⟨⟨by simp +decide [Router.route, dictInsert], by decide, rfl⟩,
    c1_amended (Router.route [] "/a" (some ["POST"]) 0) (fun _ => none)
      (fun _ _ => Except.ok ()) "/a" "GET"
      (by simp +decide [Router.route, dictInsert]) (by decide) rfl⟩

/-- Claim C2, counterexample.  The template `/item/<id:int>` is compiled
to the group `(?P<id>[^/]+)` with the type tag dropped, so the path
`/item/abc`, whose segment is not an integer, still matches that entry:
`Router.match` returns its handler with the raw string capture. -/
theorem c2_counterexample :
    Router.matching (Router.route [] "/item/<id:int>" (some ["GET"]) 7) "/item/abc" "GET"
      = some (7, [("id", "abc")]) := by
  simp +decide [Router.route, Router.matching, dictInsert, parseTemplate, parseTemplateF,
    tryPlaceholder, isWordChar, List.takeWhile_cons, List.dropWhile_cons, matchParts,
    trySplits, greedySplits, List.range_succ]

/-- Claim C2, amended.  Placeholder type tags play no role in matching:
replacing every tag in a compiled pattern by `str` yields the same match
result on every input, and concretely `/item/<id:int>` accepts `/item/42`
just as `/item/<id:str>` accepts `/item/abc`, each returning the raw
string segment without any coercion and without raising. -/
theorem c2_amended :
    (∀ (ps : List Piece) (cs : List Char), matchParts (ps.map retype) cs = matchParts ps cs)
    ∧ Router.matching (Router.route [] "/item/<id:int>" (some ["GET"]) 7) "/item/42" "GET"
        = some (7, [("id", "42")])
    ∧ Router.matching (Router.route [] "/item/<id:str>" (some ["GET"]) 7) "/item/abc" "GET"
        = some (7, [("id", "abc")]) := by
  refine ⟨matchParts_retype, ?_, ?_⟩ <;>
    simp +decide [Router.route, Router.matching, dictInsert, parseTemplate, parseTemplateF,
      tryPlaceholder, isWordChar, List.takeWhile_cons, List.dropWhile_cons, matchParts,
      trySplits, greedySplits, List.range_succ]

/-- Claim C3, counterexample.  Registering the template `/item/<id`, whose
`<` is never closed, raises nothing: the substitution finds no placeholder
to rewrite, the residual regex `^/item/<id$` is free of metacharacters (so
`re.compile` accepts it, `<` being an ordinary character), and the route
is stored — registration is not stopped and no `PatternError` exists
anywhere in the code base. -/
theorem c3_counterexample :
    compileOk "/item/<id" = true
    ∧ Router.route [] "/item/<id" (some ["GET"]) 5
      = [("/item/<id", ⟨5, ["GET"], "/item/<id".data.map Piece.lit⟩)] := by
  constructor <;>
    simp +decide [compileOk, Router.route, dictInsert, parseTemplate, parseTemplateF,
      tryPlaceholder, isWordChar, List.takeWhile_cons, List.dropWhile_cons, plainPiece,
      regexSpecial, paramNames, nodupNames]

/-- Claim C3, amended.  A template with unbalanced placeholder syntax is
accepted silently at registration time: the stray `<` becomes a literal
character of the pattern, so the stored route matches exactly the path
containing it verbatim and nothing else — any failure is deferred to
match time as an ordinary non-match, never an exception. -/
theorem c3_amended :
    Router.matching (Router.route [] "/item/<id" (some ["GET"]) 5) "/item/<id" "GET"
      = some (5, [])
    ∧ Router.matching (Router.route [] "/item/<id" (some ["GET"]) 5) "/item/7" "GET"
      = none := by
  constructor <;>
    simp +decide [Router.route, Router.matching, dictInsert, parseTemplate, parseTemplateF,
      tryPlaceholder, isWordChar, List.takeWhile_cons, List.dropWhile_cons, matchParts,
      trySplits, greedySplits, List.range_succ]

/-- Claim C4, counterexample.  An untyped placeholder `<name>` is not
rewritten by the substitution (whose pattern demands `<name:type>`), so it
stays literal text: after registering `/u/<name>`, the request path
`/u/alice` does not match at all, instead of matching with the parameter
`name` bound. -/
theorem c4_counterexample :
    Router.matching (Router.route [] "/u/<name>" (some ["GET"]) 3) "/u/alice" "GET" = none
    ∧ parseTemplate "/u/<name>".data = "/u/<name>".data.map Piece.lit := by
  constructor <;>
    simp +decide [Router.route, Router.matching, dictInsert, parseTemplate, parseTemplateF,
      tryPlaceholder, isWordChar, List.takeWhile_cons, List.dropWhile_cons, matchParts,
      trySplits, greedySplits, List.range_succ]

/-- Claim C4, amended.  For a registered template whose placeholders are
written `<name:type>` (an untyped `<name>` is literal text, not a
placeholder), a request with an allowed method to the path obtained by
filling each placeholder with a nonempty separator-free value returns that
entry's handler — provided no earlier entry matches the path with the
method — together with a parameter set whose keys are exactly the
template's placeholder names.  The `compileOk` hypothesis records that
`re.compile` accepts the template (plain literals, distinct group names),
which is the regime the embedding models. -/
theorem c4_amended (earlier later : Registry) (tmpl : String) (e : RouteEntry)
    (method : String) (vs : List String)
    (_hc : compileOk tmpl = true)
    (_hp : e.pattern = parseTemplate tmpl.data)
    (hm : method ∈ e.methods)
    (hlen : vs.length = (paramNames e.pattern).length)
    (hadm : ∀ v ∈ vs, v ≠ "" ∧ '/' ∉ v.data)
    (hearly : ∀ pe ∈ earlier,
      (matchParts pe.2.pattern (renderPieces e.pattern vs)).isSome → method ∉ pe.2.methods) :
    ∃ ps, Router.matching (earlier ++ (tmpl, e) :: later)
          (String.mk (renderPieces e.pattern vs)) method = some (e.handler, ps)
      ∧ ps.map Prod.fst = paramNames e.pattern := by
  have hmatch := matchParts_render e.pattern vs hlen hadm
  rw [Option.isSome_iff_exists] at hmatch
  obtain ⟨ps, hps⟩ := hmatch
  refine ⟨ps, ?_, matchParts_keys e.pattern _ ps hps⟩
  rw [Router.matching_append_skip earlier _ _ method hearly]
  simp only [Router.matching]
  rw [hps]
  simp [hm]

/-- Claim C4, witness for the amended theorem: the single registered
template `/users/<id:int>` with the value `42`, reaching the handler with
parameter keys `["id"]`. -/
theorem c4_witness :
    (compileOk "/users/<id:int>" = true
      ∧ "GET" ∈ (RouteEntry.mk 5 ["GET"] (parseTemplate "/users/<id:int>".data)).methods
      ∧ ["42"].length =
          (paramNames (RouteEntry.mk 5 ["GET"] (parseTemplate "/users/<id:int>".data)).pattern).length
      ∧ (∀ v ∈ ["42"], v ≠ "" ∧ '/' ∉ v.data))
    ∧ (∃ ps, Router.matching
          ([] ++ ("/users/<id:int>", RouteEntry.mk 5 ["GET"] (parseTemplate "/users/<id:int>".data)) :: [])
          (String.mk (renderPieces
            (RouteEntry.mk 5 ["GET"] (parseTemplate "/users/<id:int>".data)).pattern ["42"]))
          "GET" = some ((RouteEntry.mk 5 ["GET"] (parseTemplate "/users/<id:int>".data)).handler, ps)
        ∧ ps.map Prod.fst =
            paramNames (RouteEntry.mk 5 ["GET"] (parseTemplate "/users/<id:int>".data)).pattern) :=
  ⟨⟨by simp +decide [compileOk, parseTemplate, parseTemplateF, tryPlaceholder, isWordChar,
        List.takeWhile_cons, List.dropWhile_cons, plainPiece, regexSpecial, paramNames,
        nodupNames],
    by simp,
    by simp +decide [parseTemplate, parseTemplateF, tryPlaceholder, isWordChar,
        List.takeWhile_cons, List.dropWhile_cons, paramNames],
    by decide⟩,
   c4_amended [] [] "/users/<id:int>" (RouteEntry.mk 5 ["GET"] (parseTemplate "/users/<id:int>".data))
     "GET" ["42"]
     (by simp +decide [compileOk, parseTemplate, parseTemplateF, tryPlaceholder, isWordChar,
        List.takeWhile_cons, List.dropWhile_cons, plainPiece, regexSpecial, paramNames,
        nodupNames])
     rfl
     (by simp)
     (by simp +decide [parseTemplate, parseTemplateF, tryPlaceholder, isWordChar,
        List.takeWhile_cons, List.dropWhile_cons, paramNames])
     (by decide)
     (by simp)⟩

/-- Updating an existing key of a Python dict replaces its value in
place, keeping the key's position, and touches nothing else. -/
theorem dictInsert_replace (k : String) (v' : RouteEntry) :
    ∀ (a b : Registry) (v : RouteEntry), k ∉ a.map Prod.fst →
      dictInsert k v' (a ++ (k, v) :: b) = a ++ (k, v') :: b := by
  intro a
  induction a with
  | nil => intro b v _; simp [dictInsert]
  | cons pe rest ih =>
    intro b v hk
    obtain ⟨k1, v1⟩ := pe
    have hne : ¬(k1 = k) := by
      simp only [List.map, List.mem_cons] at hk
      exact fun contra => hk (Or.inl contra.symm)
    simp only [List.cons_append, dictInsert, if_neg hne, List.append_eq]
    rw [ih b v (by simp only [List.map, List.mem_cons] at hk; exact fun h => hk (Or.inr h))]

/-- Claim C5, counterexample.  Registering `/x` twice (handlers 1 then 2)
leaves a single registry entry holding handler 2: the dict assignment
`cls.routes[path] = ...` overwrites, so the earlier entry is gone and only
the later handler is ever reachable — not an append of both. -/
theorem c5_counterexample :
    Router.route (Router.route [] "/x" (some ["GET"]) 1) "/x" (some ["GET"]) 2
      = [("/x", ⟨2, ["GET"], "/x".data.map Piece.lit⟩)]
    ∧ (Router.route (Router.route [] "/x" (some ["GET"]) 1) "/x" (some ["GET"]) 2).length = 1
    ∧ Router.matching (Router.route (Router.route [] "/x" (some ["GET"]) 1) "/x" (some ["GET"]) 2)
        "/x" "GET" = some (2, []) := by
  refine ⟨?_, ?_, ?_⟩ <;>
    simp +decide [Router.route, Router.matching, dictInsert, parseTemplate, parseTemplateF,
      tryPlaceholder, isWordChar, List.takeWhile_cons, List.dropWhile_cons, matchParts,
      trySplits, greedySplits, List.range_succ]

/-- Claim C5, amended.  Re-registering an identical template replaces the
earlier entry in place — the registry keeps one entry for the key, at its
original position, now holding the later registration's handler, methods
and freshly compiled pattern; the earlier handler is dropped. -/
theorem c5_amended (a b : Registry) (k : String) (v : RouteEntry)
    (ms : Option (List String)) (h : Nat)
    (hk : k ∉ a.map Prod.fst) :
    Router.route (a ++ (k, v) :: b) k ms h
      = a ++ (k, ⟨h, ms.getD ["GET"], parseTemplate k.data⟩) :: b := by
  simp only [Router.route]
  exact dictInsert_replace k _ a b v hk

/-- Claim C5, witness for the amended theorem: replacing the value stored
under `/x` while an unrelated entry `/y` keeps its place. -/
theorem c5_witness :
    ("/x" ∉ ([("/y", RouteEntry.mk 9 ["GET"] (parseTemplate "/y".data))] : Registry).map Prod.fst)
    ∧ Router.route ([("/y", RouteEntry.mk 9 ["GET"] (parseTemplate "/y".data))] ++
          ("/x", RouteEntry.mk 1 ["GET"] (parseTemplate "/x".data)) :: []) "/x" (some ["PUT"]) 2
      = [("/y", RouteEntry.mk 9 ["GET"] (parseTemplate "/y".data))] ++
          ("/x", ⟨2, (some ["PUT"]).getD ["GET"], parseTemplate "/x".data⟩) :: [] :=
  ⟨by simp,
   c5_amended [("/y", RouteEntry.mk 9 ["GET"] (parseTemplate "/y".data))] []
     "/x" (RouteEntry.mk 1 ["GET"] (parseTemplate "/x".data)) (some ["PUT"]) 2 (by simp)⟩

/-- Claim C6, confirmed.  With the pre-hook stage split as `pre ++ g ::
post` where running `pre` reports `true` (no earlier hook returned the
object `False`) and `g` returns exactly `False`, the stage stops at `g`
with result `false`: the final state is the one left by `g`, and both the
stage result and the wrapper's result are independent of `post`, of the
handler and of the post-hooks — they are never invoked, and the wrapper
returns `None`. -/
theorem c6_pre_abort {σ : Type} (pre post filters : List (Hook σ)) (g handler : Hook σ)
    (s s1 : σ)
    (hpre : Middleware.process pre s = (s1, true))
    (hg : isFalseVal (g s1).2 = true) :
    Middleware.process (pre ++ g :: post) s = ((g s1).1, false)
    ∧ WebPy.wrapper (pre ++ g :: post) filters handler s = ((g s1).1, PyVal.none) := by
  have h1 : Middleware.process (pre ++ g :: post) s = ((g s1).1, false) := by
    rw [Middleware.process_append, hpre]
    simp [Middleware.process, hg]
  exact ⟨h1, by simp [WebPy.wrapper, h1]⟩

/-- Claim C6, witness: three pre-hooks on a counter state, the 2nd
returning `False`; the run stops after the 2nd hook with the wrapper
returning `None`, the 3rd hook and the handler leaving no trace. -/
theorem c6_witness :
    (Middleware.process [fun n => (n + 1, PyVal.boolTrue)] (0 : Nat) = (1, true)
      ∧ isFalseVal ((fun n => (n * 10, PyVal.boolFalse)) 1).2 = true)
    ∧ (Middleware.process
          ([fun n => (n + 1, PyVal.boolTrue)] ++
            (fun n => (n * 10, PyVal.boolFalse)) :: [fun n => (n + 100, PyVal.boolTrue)]) 0
        = (10, false)
      ∧ WebPy.wrapper
          ([fun n => (n + 1, PyVal.boolTrue)] ++
            (fun n => (n * 10, PyVal.boolFalse)) :: [fun n => (n + 100, PyVal.boolTrue)])
          [fun n => (n + 7, PyVal.boolTrue)] (fun n => (n + 1000, PyVal.str "body")) 0
        = (10, PyVal.none)) :=
  ⟨⟨rfl, rfl⟩,
   c6_pre_abort [fun n => (n + 1, PyVal.boolTrue)] [fun n => (n + 100, PyVal.boolTrue)]
     [fun n => (n + 7, PyVal.boolTrue)] (fun n => (n * 10, PyVal.boolFalse))
     (fun n => (n + 1000, PyVal.str "body")) 0 1 rfl rfl⟩

/-- Claim C7, counterexample.  A handler that raises is routed to
`warn(500)`, but a registered custom 500 handler that itself raises makes
the exception escape `process` to the transport layer: the dispatch
outcome is a propagated exception, not an InternalError response. -/
theorem c7_counterexample :
    WebPyCore.process (Router.route [] "/h" (some ["GET"]) 0)
        (fun s => if s = 500 then some (Except.error "error handler raised") else none)
        (fun _ _ => Except.error "handler raised") "/h" "GET"
      = Outcome.raised "error handler raised" := by
  simp +decide [WebPyCore.process, WebPyCore.warn, staticReq, Router.route, Router.matching,
    dictInsert, parseTemplate, parseTemplateF, tryPlaceholder, isWordChar,
    List.takeWhile_cons, List.dropWhile_cons, matchParts, trySplits, greedySplits,
    List.range_succ]

/-- Claim C7, amended.  An exception raised by a matched handler is caught
at the dispatcher boundary and answered with a 500 response (custom when a
handler is registered for 500, default otherwise) — provided the custom
500 handler, if any, does not itself raise; when it does, the exception
propagates to the transport layer (see the counterexample). -/
theorem c7_amended (routes : Registry) (errors : ErrorReg) (run : HandlerRun)
    (path method : String) (h : Nat) (ps : List (String × String)) (e : String)
    (hm : Router.matching routes path method = some (h, ps))
    (hr : run h ps = Except.error e)
    (h500 : ∀ e', errors 500 ≠ some (Except.error e')) :
    WebPyCore.process routes errors run path method
      = Outcome.errorResponse 500 (errors 500).isSome := by
  simp only [WebPyCore.process, hm, hr]
  cases h5 : errors 500 with
  | none => simp [WebPyCore.warn, h5]
  | some r =>
    cases r with
    | ok u => simp [WebPyCore.warn, h5]
    | error e' => exact absurd h5 (h500 e')

/-- Claim C7, witness for the amended theorem: a raising handler with no
custom error handlers yields the default 500 response. -/
theorem c7_witness :
    (Router.matching (Router.route [] "/h" (some ["GET"]) 0) "/h" "GET" = some (0, [])
      ∧ (fun (_ : Nat) (_ : List (String × String)) =>
          (Except.error "boom" : Except String Unit)) 0 [] = Except.error "boom"
      ∧ (∀ e', (fun _ => (none : Option (Except String Unit))) 500 ≠ some (Except.error e')))
    ∧ WebPyCore.process (Router.route [] "/h" (some ["GET"]) 0) (fun _ => none)
        (fun _ _ => Except.error "boom") "/h" "GET"
      = Outcome.errorResponse 500 ((fun _ => (none : Option (Except String Unit))) 500).isSome :=
  ⟨⟨by simp +decide [Router.route, Router.matching, dictInsert, parseTemplate, parseTemplateF,
        tryPlaceholder, isWordChar, List.takeWhile_cons, List.dropWhile_cons, matchParts,
        trySplits, greedySplits, List.range_succ],
    rfl,
    by simp⟩,
   c7_amended (Router.route [] "/h" (some ["GET"]) 0) (fun _ => none)
     (fun _ _ => Except.error "boom") "/h" "GET" 0 [] "boom"
     (by simp +decide [Router.route, Router.matching, dictInsert, parseTemplate, parseTemplateF,
        tryPlaceholder, isWordChar, List.takeWhile_cons, List.dropWhile_cons, matchParts,
        trySplits, greedySplits, List.range_succ])
     rfl
     (by simp)⟩

/-- Claim C8, counterexample.  With a custom 404 handler that raises and
nothing registered for 500, dispatching an unmatched path does not fall
back to the default 404 response: the exception from the custom handler is
re-caught by the outer `except` clause and answered as a default 500 —
a different status, not the claimed same-status fallback; at the `warn`
level the raising handler simply propagates its exception. -/
theorem c8_counterexample :
    WebPyCore.process []
        (fun s => if s = 404 then some (Except.error "custom 404 raised") else none)
        (fun _ _ => Except.ok ()) "/nope" "GET"
      = Outcome.errorResponse 500 false
    ∧ WebPyCore.warn
        (fun s => if s = 404 then some (Except.error "custom 404 raised") else none) 404
      = Except.error "custom 404 raised" := by
  constructor <;>
    simp +decide [WebPyCore.process, WebPyCore.warn, staticReq, Router.matching]

/-- Claim C8, amended.  A custom error handler that raises does not fall
back to the default response for its status code: `warn` propagates the
exception.  Inside dispatch this means a raising custom 404 handler
escalates to the 500 reporting path (default 500 response, or the custom
500 handler with its own propagation) instead of producing any 404
response. -/
theorem c8_amended (errors : ErrorReg) (status : Nat) (e : String)
    (routes : Registry) (run : HandlerRun) (path method : String)
    (hs : errors status = some (Except.error e)) :
    WebPyCore.warn errors status = Except.error e
    ∧ (status = 404 → Router.matching routes path method = none → staticReq path = false →
        WebPyCore.process routes errors run path method
          = (match WebPyCore.warn errors 500 with
             | Except.ok o => o
             | Except.error e' => Outcome.raised e')) := by
  constructor
  · simp [WebPyCore.warn, hs]
  · intro h404 hm hst
    subst h404
    simp only [WebPyCore.process, hm, hst, if_false, Bool.false_eq_true]
    rw [show WebPyCore.warn errors 404 = Except.error e by simp [WebPyCore.warn, hs]]

/-- Claim C8, witness for the amended theorem: the raising custom 404
handler with no 500 handler ends in the default 500 response. -/
theorem c8_witness :
    (((fun s => if s = 404 then some (Except.error "custom 404 raised") else none : ErrorReg)) 404
        = some (Except.error "custom 404 raised")
      ∧ Router.matching [] "/nope" "GET" = none
      ∧ staticReq "/nope" = false)
    ∧ (WebPyCore.warn (fun s => if s = 404 then some (Except.error "custom 404 raised") else none) 404
        = Except.error "custom 404 raised"
      ∧ (404 = 404 → Router.matching [] "/nope" "GET" = none → staticReq "/nope" = false →
          WebPyCore.process [] (fun s => if s = 404 then some (Except.error "custom 404 raised") else none)
              (fun _ _ => Except.ok ()) "/nope" "GET"
            = (match WebPyCore.warn
                  (fun s => if s = 404 then some (Except.error "custom 404 raised") else none) 500 with
               | Except.ok o => o
               | Except.error e' => Outcome.raised e'))) :=
  ⟨⟨rfl, rfl, by decide⟩,
   c8_amended (fun s => if s = 404 then some (Except.error "custom 404 raised") else none)
     404 "custom 404 raised" [] (fun _ _ => Except.ok ()) "/nope" "GET" rfl⟩

/-- Claim C9, confirmed.  A hook halts its stage only by returning the
object `False`: `None`, `0` and `""` all fail the identity test `result is
False`, so a hook returning any such value lets both stages continue with
the next hook, and a stage none of whose hooks returns exactly `False`
reports `true`. -/
theorem c9_exact_false_only {σ : Type} (pre post : List (Hook σ)) (h : Hook σ) (s s1 : σ)
    (hpre : Middleware.process pre s = (s1, true))
    (hpre2 : Middleware.filter pre s = (s1, true))
    (hnf : isFalseVal (h s1).2 = false)
    (hpost : ∀ g ∈ post, ∀ t, isFalseVal (g t).2 = false) :
    isFalseVal PyVal.none = false
    ∧ isFalseVal (PyVal.int 0) = false
    ∧ isFalseVal (PyVal.str "") = false
    ∧ Middleware.process (pre ++ h :: post) s = Middleware.process post (h s1).1
    ∧ Middleware.filter (pre ++ h :: post) s = Middleware.filter post (h s1).1
    ∧ (Middleware.process (pre ++ h :: post) s).2 = true
    ∧ (Middleware.filter (pre ++ h :: post) s).2 = true := by
  have hp : Middleware.process (pre ++ h :: post) s = Middleware.process post (h s1).1 := by
    rw [Middleware.process_append, hpre]
    simp [Middleware.process, hnf]
  have hf : Middleware.filter (pre ++ h :: post) s = Middleware.filter post (h s1).1 := by
    rw [Middleware.filter_append, hpre2]
    simp [Middleware.filter, hnf]
  refine ⟨rfl, rfl, rfl, hp, hf, ?_, ?_⟩
  · rw [hp]
    exact Middleware.process_all_true post hpost _
  · rw [hf]
    exact Middleware.filter_all_true post hpost _

/-- Claim C9, witness: hooks returning `0`, `None` and `""` never halt a
stage; both stages run to the end and report `true`. -/
theorem c9_witness :
    (Middleware.process [fun n => (n + 1, PyVal.int 0)] (0 : Nat) = (1, true)
      ∧ Middleware.filter [fun n => (n + 1, PyVal.int 0)] (0 : Nat) = (1, true)
      ∧ isFalseVal ((fun n => (n + 2, PyVal.none)) 1).2 = false
      ∧ (∀ g ∈ [fun n => ((n : Nat) + 3, PyVal.str "")], ∀ t, isFalseVal (g t).2 = false))
    ∧ (isFalseVal PyVal.none = false
      ∧ isFalseVal (PyVal.int 0) = false
      ∧ isFalseVal (PyVal.str "") = false
      ∧ Middleware.process
          ([fun n => (n + 1, PyVal.int 0)] ++
            (fun n => (n + 2, PyVal.none)) :: [fun n => (n + 3, PyVal.str "")]) 0
        = Middleware.process [fun n => (n + 3, PyVal.str "")] ((fun n => (n + 2, PyVal.none)) 1).1
      ∧ Middleware.filter
          ([fun n => (n + 1, PyVal.int 0)] ++
            (fun n => (n + 2, PyVal.none)) :: [fun n => (n + 3, PyVal.str "")]) 0
        = Middleware.filter [fun n => (n + 3, PyVal.str "")] ((fun n => (n + 2, PyVal.none)) 1).1
      ∧ (Middleware.process
          ([fun n => (n + 1, PyVal.int 0)] ++
            (fun n => (n + 2, PyVal.none)) :: [fun n => (n + 3, PyVal.str "")]) 0).2 = true
      ∧ (Middleware.filter
          ([fun n => (n + 1, PyVal.int 0)] ++
            (fun n => (n + 2, PyVal.none)) :: [fun n => (n + 3, PyVal.str "")]) 0).2 = true) :=
  ⟨⟨rfl, rfl, rfl, by intro g hg t; simp at hg; subst hg; rfl⟩,
   c9_exact_false_only [fun n => (n + 1, PyVal.int 0)] [fun n => (n + 3, PyVal.str "")]
     (fun n => (n + 2, PyVal.none)) 0 1 rfl rfl rfl
     (by intro g hg t; simp at hg; subst hg; rfl)⟩

/-- Claim C10, confirmed.  When the preprocessing stage reports `False`,
the wrapper registered by `WebPy.route` returns `None` in the state the
pre-hooks left: the right-hand side mentions neither the handler nor the
post-hook list, so the handler is not called and no post-hook runs. -/
theorem c10_wrapper_abort {σ : Type} (guards filters : List (Hook σ)) (handler : Hook σ)
    (s s1 : σ)
    (hab : Middleware.process guards s = (s1, false)) :
    WebPy.wrapper guards filters handler s = (s1, PyVal.none) := by
  simp [WebPy.wrapper, hab]

/-- Claim C10, witness: a single pre-hook returning `False` makes the
wrapper return `None` without running the handler or the post-hook. -/
theorem c10_witness :
    Middleware.process [fun n => (n * 2, PyVal.boolFalse)] (3 : Nat) = (6, false)
    ∧ WebPy.wrapper [fun n => (n * 2, PyVal.boolFalse)] [fun n => (n + 50, PyVal.boolTrue)]
        (fun n => (n + 500, PyVal.str "body")) 3 = (6, PyVal.none) :=
  ⟨rfl,
   c10_wrapper_abort [fun n => (n * 2, PyVal.boolFalse)] [fun n => (n + 50, PyVal.boolTrue)]
     (fun n => (n + 500, PyVal.str "body")) 3 6 rfl⟩
